import Mathlib

/-!
Verification of the Bridge_Defense UDP authentication client (`auth.py`).

The development shallowly embeds the protocol codec and the send/retry
exchange loop of the source file.  Bytes are modelled as natural numbers
below 256 in lists; Python strings are modelled by the list of their
character code points.  The `struct` module's big-endian pack and unpack
directives (`!h`, `!i`, `Ns`) are translated literally, including the
truncate-or-NUL-pad behaviour of the `s` directive and the two's-complement
reading of signed fields.
-/

namespace BridgeAuth

/-- Interpret an unsigned 16-bit value as a signed one, as `struct` does for
the `h` directive. -/
def toSigned16 (u : Nat) : Int :=
  if u < 32768 then (u : Int) else (u : Int) - 65536

/-- Interpret an unsigned 32-bit value as a signed one, as `struct` does for
the `i` directive. -/
def toSigned32 (u : Nat) : Int :=
  if u < 2147483648 then (u : Int) else (u : Int) - 4294967296

/-- `struct.pack "!h"`: two big-endian bytes of a signed 16-bit integer. -/
def pack_h (v : Int) : List Nat :=
  [(v % 65536).toNat / 256, (v % 65536).toNat % 256]

/-- `struct.pack "!i"`: four big-endian bytes of a signed 32-bit integer. -/
def pack_i (v : Int) : List Nat :=
  [(v % 4294967296).toNat / 16777216 % 256,
   (v % 4294967296).toNat / 65536 % 256,
   (v % 4294967296).toNat / 256 % 256,
   (v % 4294967296).toNat % 256]

/-- `struct.unpack "!h"` applied to a two-byte slice. -/
def unpack_h2 : List Nat → Int
  | [b0, b1] => toSigned16 (b0 * 256 + b1)
  | _ => 0

/-- `struct.unpack "!i"` applied to a four-byte slice. -/
def unpack_i4 : List Nat → Int
  | [b0, b1, b2, b3] => toSigned32 (((b0 * 256 + b1) * 256 + b2) * 256 + b3)
  | _ => 0

/-- `struct.pack "Ns"`: the byte string is truncated or padded with NUL
bytes to exactly `w` bytes. -/
def pack_s (w : Nat) (b : List Nat) : List Nat :=
  b.take w ++ List.replicate (w - b.length) 0

/-- Python `str.ljust(w)`: pad on the right with spaces up to width `w`. -/
def ljust (s : List Nat) (w : Nat) : List Nat :=
  s ++ List.replicate (w - s.length) 32

/-- Python `bytes(s, encoding="ascii")` succeeds exactly when every code
point is below 128 (and it is then the identity on the code list). -/
def isAscii (l : List Nat) : Bool :=
  l.all (fun c => c < 128)

/-- The ASCII characters Python `str.strip()` removes: the code points
below 128 on which `str.isspace()` holds, i.e. tab through carriage
return (9-13), the separators FS, GS, RS, US (28-31), and space (32). -/
def isPySpace (c : Nat) : Bool :=
  c == 32 || c == 9 || c == 10 || c == 13 || c == 11 || c == 12 ||
    c == 28 || c == 29 || c == 30 || c == 31

/-- Python `str.strip()`: drop leading and trailing whitespace. -/
def pyStrip (l : List Nat) : List Nat :=
  ((l.dropWhile isPySpace).reverse.dropWhile isPySpace).reverse

/-- The signed 32-bit range accepted by `struct.pack "!i"`. -/
def inRange32 (v : Int) : Prop :=
  -2147483648 ≤ v ∧ v ≤ 2147483647

instance (v : Int) : Decidable (inRange32 v) := by
  unfold inRange32; infer_instance

/-- Code points of a string literal, for readable concrete inputs. -/
def strCodes (s : String) : List Nat :=
  s.data.map Char.toNat

/-- Decimal digits (as code points) of a natural number, as Python renders
it in an f-string.  The first argument is fuel, always sufficient. -/
def natDecAux : Nat → Nat → List Nat
  | 0, _ => []
  | fuel + 1, n => if n < 10 then [48 + n] else natDecAux fuel (n / 10) ++ [48 + n % 10]

/-- Decimal rendering (as code points) of an integer, as in `f-strings`. -/
def intDecimal (v : Int) : List Nat :=
  if v < 0 then 45 :: natDecAux (v.natAbs + 1) v.natAbs else natDecAux (v.toNat + 1) v.toNat

-- Basic length facts about the packing primitives.

theorem length_pack_h (v : Int) : (pack_h v).length = 2 := rfl

theorem length_pack_i (v : Int) : (pack_i v).length = 4 := rfl

theorem length_pack_s (w : Nat) (b : List Nat) : (pack_s w b).length = w := by
  simp only [pack_s, List.length_append, List.length_take, List.length_replicate]
  omega

theorem length_ljust (s : List Nat) (w : Nat) (h : s.length ≤ w) :
    (ljust s w).length = w := by
  simp only [ljust, List.length_append, List.length_replicate]
  omega

theorem pack_s_of_le (w : Nat) (b : List Nat) (h : b.length ≤ w) :
    pack_s w b = b ++ List.replicate (w - b.length) 0 := by
  simp only [pack_s, List.take_of_length_le h]

theorem pack_s_of_eq (w : Nat) (b : List Nat) (h : b.length = w) :
    pack_s w b = b := by
  simp [pack_s_of_le w b (le_of_eq h), h]

theorem unpack_pack_h (v : Int) (h1 : -32768 ≤ v) (h2 : v ≤ 32767) :
    unpack_h2 (pack_h v) = v := by
  simp only [pack_h, unpack_h2, toSigned16]
  have hv : (0 : Int) ≤ v % 65536 := Int.emod_nonneg v (by norm_num)
  have hv2 : v % 65536 < 65536 := Int.emod_lt_of_pos v (by norm_num)
  split <;> omega

theorem unpack_pack_i (v : Int) (h : inRange32 v) :
    unpack_i4 (pack_i v) = v := by
  obtain ⟨h1, h2⟩ := h
  simp only [pack_i, unpack_i4, toSigned32]
  have hv : (0 : Int) ≤ v % 4294967296 := Int.emod_nonneg v (by norm_num)
  have hv2 : v % 4294967296 < 4294967296 := Int.emod_lt_of_pos v (by norm_num)
  split <;> omega

-- § Exchange model (sendPayload, auth.py lines 189-225).
-- The socket is abstracted as a channel assigning to each attempt index the
-- outcome of that attempt's send/recv pair.

/-- Outcome of one send/recv attempt on the datagram channel. -/
inductive AttemptOutcome
  | timeout
  | fault
  | reply (res : List Nat)
deriving DecidableEq

/-- Result of the retry loop body: either an OSError escape (exit 2) or the
final value of `res` (empty when the attempt budget ran out). -/
inductive LoopResult
  | fault
  | got (res : List Nat)
deriving DecidableEq

/-- Terminal classification of one exchange, mirroring the exit paths of
`sendPayload`: exit(2), exit(3), exit(4) and the normal return. -/
inductive ExchangeResult
  | channelFault
  | noResponse
  | protocolError (code : Int)
  | success (res : List Nat)
deriving DecidableEq

/-- The `while attempts` loop of `sendPayload`: each iteration performs one
send, then on timeout decrements the budget, on any other OSError aborts,
and on a received datagram breaks with it.  The second component counts the
iterations performed, i.e. the number of sends. -/
def attemptLoop (ch : Nat → AttemptOutcome) : Nat → Nat → LoopResult × Nat
  | 0, _ => (.got [], 0)
  | a + 1, k =>
    match ch k with
    | .timeout => let r := attemptLoop ch a (k + 1); (r.1, r.2 + 1)
    | .fault => (.fault, 1)
    | .reply res => (.got res, 1)

/-- Number of sends performed by `sendPayload` on channel `ch` with the
given attempt budget. -/
def sendCount (ch : Nat → AttemptOutcome) (attempts : Nat) : Nat :=
  (attemptLoop ch attempts 0).2

/-- `sendPayload` (auth.py lines 189-225): run the retry loop, then classify
the result — empty reply means exit(3) "No response from the server"; a
4-byte reply whose first signed 16-bit field is 256 means exit(4) with the
server error code; anything else is returned to the caller. -/
def sendPayload (ch : Nat → AttemptOutcome) (attempts : Nat) : ExchangeResult :=
  match (attemptLoop ch attempts 0).1 with
  | .fault => .channelFault
  | .got res =>
    if res.length = 0 then .noResponse
    else if res.length = 4 then
      if unpack_h2 (res.take 2) = 256 then
        .protocolError (unpack_h2 ((res.drop 2).take 2))
      else .success res
    else .success res

/-- The error-reply probe realized in `sendPayload`'s classification: a
populated error record exactly when the reply is 4 bytes with leading
signed 16-bit field 256; the pair holds the type marker and the code. -/
def tryDecodeError (res : List Nat) : Option (Int × Int) :=
  if res.length = 4 then
    if unpack_h2 (res.take 2) = 256 then
      some (256, unpack_h2 ((res.drop 2).take 2))
    else none
  else none

/-- `getServerErrorMsg` (auth.py lines 139-151). -/
def authServerErrorMsg : List String :=
  ["INVALID_MESSAGE_CODE",
   "INCORRECT_MESSAGE_LENGTH",
   "INVALID_PARAMETER",
   "INVALID_SINGLE_TOKEN",
   "ASCII_DECODE_ERROR"]

/-- Lookup of the human-readable message for a server error code. -/
def getServerErrorMsg (code : Int) : String :=
  if (authServerErrorMsg.length : Int) < code ∨ code < 1 then "UNKNOWN_ERROR_CODE"
  else authServerErrorMsg.getD (code - 1).toNat "UNKNOWN_ERROR_CODE"

-- § Codec (auth.py lines 6-82 and 228-318).

/-- The decoded individual token response (auth.py lines 13-21). -/
structure IndividualTokenResponse where
  type : Int
  id : List Nat
  nonce : Int
  token : List Nat
deriving DecidableEq

/-- `IndividualTokenResponse.getStringSAS`: the string `id:nonce:token`. -/
def IndividualTokenResponse.getStringSAS (r : IndividualTokenResponse) : List Nat :=
  r.id ++ [58] ++ intDecimal r.nonce ++ [58] ++ r.token

/-- Payload construction of `sendIndividualTokenRequest` (lines 235-240):
`struct.pack("!h12si", 1, bytes(id.ljust(12), "ascii"), nonce)`.  Fails
(UnicodeEncodeError / struct.error) on non-ASCII ids or out-of-range
nonces. -/
def encodeIndividualRequest (id : List Nat) (nonce : Int) : Option (List Nat) :=
  if isAscii id ∧ inRange32 nonce then
    some (pack_h 1 ++ pack_s 12 (ljust id 12) ++ pack_i nonce)
  else none

/-- Reply parsing of `sendIndividualTokenRequest` (lines 246-250):
`struct.unpack("!h12si64s", res)` demands exactly 82 bytes; the id field is
ASCII-decoded and stripped, the token field ASCII-decoded only. -/
def decodeIndividualResponse (res : List Nat) : Option IndividualTokenResponse :=
  if res.length = 82 then
    let idB := (res.drop 2).take 12
    let tokB := (res.drop 18).take 64
    if isAscii idB ∧ isAscii tokB then
      some ⟨unpack_h2 (res.take 2), pyStrip idB,
            unpack_i4 ((res.drop 14).take 4), tokB⟩
    else none
  else none

/-- Payload construction of `sendIndividualTokenValidation` (lines 262-268):
`struct.pack("!h12si64s", 3, bytes(id.ljust(12), "ascii"), nonce,
bytes(token, "ascii"))`.  Note the token is not ljust-padded: `struct`
pads it with NUL bytes. -/
def encodeIndividualValidation (id : List Nat) (nonce : Int) (token : List Nat) :
    Option (List Nat) :=
  if isAscii id ∧ isAscii token ∧ inRange32 nonce then
    some (pack_h 3 ++ pack_s 12 (ljust id 12) ++ pack_i nonce ++ pack_s 64 token)
  else none

/-- One group member: the `(id, nonce, token)` tuple of the source. -/
structure Sas where
  id : List Nat
  nonce : Int
  token : List Nat
deriving DecidableEq

/-- The decoded group token response (auth.py lines 48-58). -/
structure GroupTokenResponse where
  type : Int
  n : Int
  group : List Sas
  token : List Nat
deriving DecidableEq

/-- One 80-byte member chunk: `struct.pack("!12si64s", bytes(id.ljust(12),
"ascii"), nonce, bytes(token, "ascii"))` (lines 292-298). -/
def packSas (s : Sas) : Option (List Nat) :=
  if isAscii s.id ∧ isAscii s.token ∧ inRange32 s.nonce then
    some (pack_s 12 (ljust s.id 12) ++ pack_i s.nonce ++ pack_s 64 s.token)
  else none

/-- The `sasChunk` accumulation loop of `sendGroupTokenRequest` (lines
290-298): concatenate the member chunks in order, failing at the first
member that fails to pack. -/
def sasChunk : List Sas → Option (List Nat)
  | [] => some []
  | s :: rest =>
    match packSas s, sasChunk rest with
    | some b, some r => some (b ++ r)
    | _, _ => none

/-- Payload construction of `sendGroupTokenRequest` (line 300):
`struct.pack(f"!hh{80*n}s", 5, n, sasChunk)` — the chunk is truncated or
NUL-padded to exactly `80*n` bytes by the `s` directive.  The `h`
directive bounds `n` by 32767. -/
def encodeGroupRequest (n : Nat) (group : List Sas) : Option (List Nat) :=
  match sasChunk group with
  | some c =>
    if n ≤ 32767 then some (pack_h 5 ++ pack_h (n : Int) ++ pack_s (80 * n) c)
    else none
  | none => none

/-- Decoding of one 80-byte member slice (lines 311-316):
`struct.unpack("!12si64s", sas)` then ASCII-decode, stripping the id only. -/
def decodeSasChunk (b : List Nat) : Option Sas :=
  let idB := b.take 12
  let tokB := (b.drop 16).take 64
  if isAscii idB ∧ isAscii tokB then
    some ⟨pyStrip idB, unpack_i4 ((b.drop 12).take 4), tokB⟩
  else none

/-- The `for i in range(n)` slicing loop of `sendGroupTokenRequest`
(lines 308-316): the i-th member is decoded from bytes `80*i .. 80*(i+1)`
of the chunk region. -/
def decodeSasList : Nat → List Nat → Option (List Sas)
  | 0, _ => some []
  | n + 1, b =>
    match decodeSasChunk (b.take 80), decodeSasList n (b.drop 80) with
    | some s, some rest => some (s :: rest)
    | _, _ => none

/-- Reply parsing of `sendGroupTokenRequest` (lines 306-318):
`struct.unpack(f"!hh{80*n}s64s", res)` demands exactly `4+80n+64` bytes;
the chunk region is sliced into `n` members; the aggregate token is
ASCII-decoded without stripping. -/
def decodeGroupResponse (n : Nat) (res : List Nat) : Option GroupTokenResponse :=
  if res.length = 4 + (80 * n + 64) then
    let tokB := (res.drop (4 + 80 * n)).take 64
    if isAscii tokB then
      (decodeSasList n ((res.drop 4).take (80 * n))).map
        (fun g => ⟨unpack_h2 (res.take 2), unpack_h2 ((res.drop 2).take 2), g, tokB⟩)
    else none
  else none

-- § Helper lemmas about ASCII checks and stripping.

theorem isAscii_append (l1 l2 : List Nat) :
    isAscii (l1 ++ l2) = (isAscii l1 && isAscii l2) := by
  simp [isAscii, List.all_append]

theorem isAscii_replicate_space (k : Nat) :
    isAscii (List.replicate k 32) = true := by
  simp [isAscii, List.all_eq_true, List.mem_replicate]

theorem isAscii_replicate_zero (k : Nat) :
    isAscii (List.replicate k 0) = true := by
  simp [isAscii, List.all_eq_true, List.mem_replicate]

theorem dropWhile_isPySpace_replicate (k : Nat) (t : List Nat) :
    (List.replicate k 32 ++ t).dropWhile isPySpace = t.dropWhile isPySpace := by
  induction k with
  | zero => simp
  | succ k ih =>
    rw [List.replicate_succ, List.cons_append, List.dropWhile_cons,
        if_pos (show isPySpace 32 = true from rfl)]
    exact ih

theorem pyStrip_pad (l : List Nat) (k : Nat)
    (h1 : l.dropWhile isPySpace = l)
    (h2 : l.reverse.dropWhile isPySpace = l.reverse) :
    pyStrip (l ++ List.replicate k 32) = l := by
  unfold pyStrip
  cases l with
  | nil =>
    have hall : (List.replicate k 32).dropWhile isPySpace = [] := by
      have hd := dropWhile_isPySpace_replicate k []
      rw [List.append_nil, List.dropWhile_nil] at hd
      exact hd
    simp [hall]
  | cons x t =>
    have hx : isPySpace x = false := by
      by_cases hp : isPySpace x = true
      · exfalso
        have hlen := congrArg List.length h1
        have hle : (t.dropWhile isPySpace).length ≤ t.length :=
          (List.dropWhile_sublist isPySpace).length_le
        simp [List.dropWhile_cons, hp] at hlen
        omega
      · simpa using hp
    have hstep : ((x :: t) ++ List.replicate k 32).dropWhile isPySpace =
        (x :: t) ++ List.replicate k 32 := by
      simp [List.dropWhile_cons, hx]
    rw [hstep, List.reverse_append, List.reverse_replicate,
        dropWhile_isPySpace_replicate, h2, List.reverse_reverse]

-- § Validity predicates for group members.

/-- The member packs without an exception: ASCII id and token, nonce in the
signed 32-bit range. -/
def asciiSas (s : Sas) : Prop :=
  isAscii s.id = true ∧ isAscii s.token = true ∧ inRange32 s.nonce

instance (s : Sas) : Decidable (asciiSas s) := by
  unfold asciiSas; infer_instance

/-- A member whose fields fit their wire widths and whose id has no leading
or trailing whitespace (so that the decoder's strip is the identity). -/
def validSas (s : Sas) : Prop :=
  asciiSas s ∧ s.id.length ≤ 12 ∧ s.token.length ≤ 64 ∧
  s.id.dropWhile isPySpace = s.id ∧
  s.id.reverse.dropWhile isPySpace = s.id.reverse

instance (s : Sas) : Decidable (validSas s) := by
  unfold validSas; infer_instance

/-- What decoding gives back for a member: the token comes back with the
NUL padding that `struct.pack "64s"` added. -/
def padSas (s : Sas) : Sas :=
  ⟨s.id, s.nonce, s.token ++ List.replicate (64 - s.token.length) 0⟩

theorem packSas_eq (s : Sas) (h : asciiSas s) :
    packSas s = some (pack_s 12 (ljust s.id 12) ++ pack_i s.nonce ++ pack_s 64 s.token) := by
  unfold packSas
  rw [if_pos]
  exact ⟨h.1, h.2.1, h.2.2⟩

theorem length_packSas_block (s : Sas) :
    (pack_s 12 (ljust s.id 12) ++ pack_i s.nonce ++ pack_s 64 s.token).length = 80 := by
  simp [List.length_append, length_pack_s, length_pack_i]

theorem decode_packSas_block (s : Sas) (h : validSas s) :
    decodeSasChunk (pack_s 12 (ljust s.id 12) ++ pack_i s.nonce ++ pack_s 64 s.token) =
      some (padSas s) := by
  obtain ⟨⟨hida, htoka, hnr⟩, hidl, htokl, hs1, hs2⟩ := h
  have hA : pack_s 12 (ljust s.id 12) = s.id ++ List.replicate (12 - s.id.length) 32 := by
    rw [pack_s_of_eq 12 (ljust s.id 12) (length_ljust s.id 12 hidl)]
    rfl
  have hC : pack_s 64 s.token = s.token ++ List.replicate (64 - s.token.length) 0 :=
    pack_s_of_le 64 s.token htokl
  have hAlen : (pack_s 12 (ljust s.id 12)).length = 12 := length_pack_s 12 _
  have hABlen : (pack_s 12 (ljust s.id 12) ++ pack_i s.nonce).length = 16 := by
    simp [List.length_append, hAlen, length_pack_i]
  unfold decodeSasChunk
  rw [List.append_assoc]
  rw [List.take_left' hAlen, List.drop_left' hAlen]
  rw [List.take_left' (by simp [length_pack_i] : (pack_i s.nonce).length = 4)]
  rw [← List.append_assoc]
  rw [List.drop_left' hABlen]
  rw [List.take_of_length_le (by simp [hC, List.length_append] ; omega)]
  have hidascii : isAscii (pack_s 12 (ljust s.id 12)) = true := by
    rw [hA, isAscii_append, hida, isAscii_replicate_space]
    rfl
  have htokascii : isAscii (pack_s 64 s.token) = true := by
    rw [hC, isAscii_append, htoka, isAscii_replicate_zero]
    rfl
  rw [if_pos ⟨hidascii, htokascii⟩]
  rw [unpack_pack_i s.nonce hnr]
  rw [hA, pyStrip_pad s.id _ hs1 hs2, hC]
  rfl

theorem sasChunk_eq (group : List Sas) (h : ∀ s ∈ group, asciiSas s) :
    ∃ c, sasChunk group = some c ∧ c.length = 80 * group.length := by
  induction group with
  | nil => exact ⟨[], rfl, rfl⟩
  | cons s rest ih =>
    obtain ⟨c, hc, hlen⟩ := ih (fun t ht => h t (List.mem_cons_of_mem s ht))
    refine ⟨(pack_s 12 (ljust s.id 12) ++ pack_i s.nonce ++ pack_s 64 s.token) ++ c, ?_, ?_⟩
    · simp only [sasChunk, packSas_eq s (h s (List.mem_cons_self s rest)), hc]
    · simp only [List.length_append, length_pack_s, length_pack_i, hlen, List.length_cons]
      omega

theorem decodeSasList_chunk (group : List Sas) (h : ∀ s ∈ group, validSas s) :
    ∀ c, sasChunk group = some c →
      decodeSasList group.length c = some (group.map padSas) := by
  induction group with
  | nil =>
    intro c hc
    have hceq : c = [] := by simpa [sasChunk] using hc.symm
    subst hceq
    rfl
  | cons s rest ih =>
    intro c hc
    have hs : validSas s := h s (List.mem_cons_self s rest)
    have hrest : ∀ t ∈ rest, validSas t := fun t ht => h t (List.mem_cons_of_mem s ht)
    unfold sasChunk at hc
    rw [packSas_eq s hs.1] at hc
    cases hcr : sasChunk rest with
    | none => rw [hcr] at hc; exact absurd hc (by simp)
    | some r =>
      rw [hcr] at hc
      have hceq : c = (pack_s 12 (ljust s.id 12) ++ pack_i s.nonce ++ pack_s 64 s.token) ++ r :=
        (Option.some.inj hc).symm
      subst hceq
      show decodeSasList (rest.length + 1) _ = _
      unfold decodeSasList
      rw [List.take_left' (length_packSas_block s), List.drop_left' (length_packSas_block s)]
      rw [decode_packSas_block s hs, ih hrest r hcr]
      rfl

-- § Helper lemmas about the retry loop.

theorem attemptLoop_timeout (ch : Nat → AttemptOutcome) :
    ∀ a k, (∀ j, j < a → ch (k + j) = .timeout) →
      attemptLoop ch a k = (.got [], a) := by
  intro a
  induction a with
  | zero => intro k _; rfl
  | succ a ih =>
    intro k h
    have h0 : ch k = .timeout := by simpa using h 0 (Nat.succ_pos a)
    have hrec := ih (k + 1) (fun j hj => by
      have := h (j + 1) (Nat.succ_lt_succ hj)
      simpa [Nat.add_assoc, Nat.add_comm 1 j] using this)
    simp [attemptLoop, h0, hrec]

theorem attemptLoop_fault (ch : Nat → AttemptOutcome) :
    ∀ k a k0, k < a → (∀ j, j < k → ch (k0 + j) = .timeout) →
      ch (k0 + k) = .fault → attemptLoop ch a k0 = (.fault, k + 1) := by
  intro k
  induction k with
  | zero =>
    intro a k0 ha _ hf
    obtain ⟨b, rfl⟩ := Nat.exists_eq_succ_of_ne_zero (Nat.pos_iff_ne_zero.1 ha)
    simp only [Nat.add_zero] at hf
    simp [attemptLoop, hf]
  | succ k ih =>
    intro a k0 ha hpre hf
    obtain ⟨b, rfl⟩ := Nat.exists_eq_succ_of_ne_zero
      (Nat.pos_iff_ne_zero.1 (Nat.lt_of_le_of_lt (Nat.zero_le _) ha))
    have h0 : ch k0 = .timeout := by simpa using hpre 0 (Nat.succ_pos k)
    have hrec := ih b (k0 + 1) (Nat.lt_of_succ_lt_succ ha)
      (fun j hj => by
        have := hpre (j + 1) (Nat.succ_lt_succ hj)
        simpa [Nat.add_assoc, Nat.add_comm 1 j] using this)
      (by simpa [Nat.add_assoc, Nat.add_comm 1 k] using hf)
    simp [attemptLoop, h0, hrec]

theorem attemptLoop_reply (ch : Nat → AttemptOutcome) (res : List Nat) :
    ∀ k a k0, k < a → (∀ j, j < k → ch (k0 + j) = .timeout) →
      ch (k0 + k) = .reply res → attemptLoop ch a k0 = (.got res, k + 1) := by
  intro k
  induction k with
  | zero =>
    intro a k0 ha _ hf
    obtain ⟨b, rfl⟩ := Nat.exists_eq_succ_of_ne_zero (Nat.pos_iff_ne_zero.1 ha)
    simp only [Nat.add_zero] at hf
    simp [attemptLoop, hf]
  | succ k ih =>
    intro a k0 ha hpre hf
    obtain ⟨b, rfl⟩ := Nat.exists_eq_succ_of_ne_zero
      (Nat.pos_iff_ne_zero.1 (Nat.lt_of_le_of_lt (Nat.zero_le _) ha))
    have h0 : ch k0 = .timeout := by simpa using hpre 0 (Nat.succ_pos k)
    have hrec := ih b (k0 + 1) (Nat.lt_of_succ_lt_succ ha)
      (fun j hj => by
        have := hpre (j + 1) (Nat.succ_lt_succ hj)
        simpa [Nat.add_assoc, Nat.add_comm 1 j] using this)
      (by simpa [Nat.add_assoc, Nat.add_comm 1 k] using hf)
    simp [attemptLoop, h0, hrec]

-- § Claim theorems: exchange behaviour.

/-- C6: when every attempt times out, the exchange sends the request exactly
`attempts` times (the source default is 5) and terminates with the distinct
no-response outcome, never with a channel fault. -/
theorem claim_C6_all_timeouts (ch : Nat → AttemptOutcome) (attempts : Nat)
    (h : ∀ k, k < attempts → ch k = AttemptOutcome.timeout) :
    sendPayload ch attempts = ExchangeResult.noResponse ∧
    sendCount ch attempts = attempts ∧
    sendPayload ch attempts ≠ ExchangeResult.channelFault := by
  have hloop := attemptLoop_timeout ch attempts 0 (fun j hj => by simpa using h j hj)
  refine ⟨by simp [sendPayload, hloop], by simp [sendCount, hloop], by simp [sendPayload, hloop]⟩

/-- C6 witness: the all-timeout channel with the default budget of 5. -/
theorem claim_C6_witness :
    sendPayload (fun _ => AttemptOutcome.timeout) 5 = ExchangeResult.noResponse ∧
    sendCount (fun _ => AttemptOutcome.timeout) 5 = 5 ∧
    sendPayload (fun _ => AttemptOutcome.timeout) 5 ≠ ExchangeResult.channelFault :=
  claim_C6_all_timeouts (fun _ => AttemptOutcome.timeout) 5 (fun _ _ => rfl)

/-- C7: a non-timeout channel fault on attempt `k` (after `k` timeouts)
terminates the exchange immediately with the channel-fault outcome, after
exactly `k + 1` sends, leaving the remaining budget unconsumed. -/
theorem claim_C7_fault_aborts (ch : Nat → AttemptOutcome) (attempts k : Nat)
    (hk : k < attempts)
    (hf : ch k = AttemptOutcome.fault)
    (hpre : ∀ j, j < k → ch j = AttemptOutcome.timeout) :
    sendPayload ch attempts = ExchangeResult.channelFault ∧
    sendCount ch attempts = k + 1 := by
  have hloop := attemptLoop_fault ch k attempts 0 hk
    (fun j hj => by simpa using hpre j hj) (by simpa using hf)
  exact ⟨by simp [sendPayload, hloop], by simp [sendCount, hloop]⟩

/-- C7 witness: a fault on the very first attempt of a 5-attempt budget. -/
theorem claim_C7_witness :
    sendPayload (fun _ => AttemptOutcome.fault) 5 = ExchangeResult.channelFault ∧
    sendCount (fun _ => AttemptOutcome.fault) 5 = 0 + 1 :=
  claim_C7_fault_aborts (fun _ => AttemptOutcome.fault) 5 0 (by omega) rfl
    (fun j hj => absurd hj (Nat.not_lt_zero j))

/-- C9: a zero-length datagram received on attempt `k` (after `k` timeouts)
yields the no-response outcome, the same outcome the all-timeout channel
produces — an empty reply is indistinguishable from no reply. -/
theorem claim_C9_empty_reply (ch : Nat → AttemptOutcome) (attempts k : Nat)
    (hk : k < attempts)
    (hr : ch k = AttemptOutcome.reply [])
    (hpre : ∀ j, j < k → ch j = AttemptOutcome.timeout) :
    sendPayload ch attempts = ExchangeResult.noResponse ∧
    sendPayload ch attempts = sendPayload (fun _ => AttemptOutcome.timeout) attempts := by
  have hloop := attemptLoop_reply ch [] k attempts 0 hk
    (fun j hj => by simpa using hpre j hj) (by simpa using hr)
  have h1 : sendPayload ch attempts = ExchangeResult.noResponse := by
    simp [sendPayload, hloop]
  have h2 : sendPayload (fun _ => AttemptOutcome.timeout) attempts = ExchangeResult.noResponse := by
    have ht := attemptLoop_timeout (fun _ => AttemptOutcome.timeout) attempts 0 (fun _ _ => rfl)
    simp [sendPayload, ht]
  exact ⟨h1, h1.trans h2.symm⟩

/-- C9 witness: the empty datagram arriving on the first of 5 attempts. -/
theorem claim_C9_witness :
    sendPayload (fun _ => AttemptOutcome.reply []) 5 = ExchangeResult.noResponse ∧
    sendPayload (fun _ => AttemptOutcome.reply []) 5 =
      sendPayload (fun _ => AttemptOutcome.timeout) 5 :=
  claim_C9_empty_reply (fun _ => AttemptOutcome.reply []) 5 0 (by omega) rfl
    (fun j hj => absurd hj (Nat.not_lt_zero j))

/-- C1 (amended): the error probe is populated exactly for 4-byte replies
whose leading signed 16-bit field is 256; a nonempty reply the probe
rejects is passed through as a success, a reply the probe accepts becomes
the protocol-error outcome with its code, and an empty reply is not
passed through but reported as the no-response outcome. -/
theorem claim_C1_error_probe (res : List Nat) (ch : Nat → AttemptOutcome) (attempts : Nat)
    (h0 : ch 0 = AttemptOutcome.reply res) (ha : 0 < attempts) :
    ((tryDecodeError res).isSome = true ↔ res.length = 4 ∧ unpack_h2 (res.take 2) = 256) ∧
    (res ≠ [] → tryDecodeError res = none →
      sendPayload ch attempts = ExchangeResult.success res) ∧
    ((tryDecodeError res).isSome = true →
      sendPayload ch attempts = ExchangeResult.protocolError (unpack_h2 ((res.drop 2).take 2))) ∧
    (res = [] → sendPayload ch attempts = ExchangeResult.noResponse) := by
  have hloop := attemptLoop_reply ch res 0 attempts 0 ha
    (fun j hj => absurd hj (Nat.not_lt_zero j)) (by simpa using h0)
  have hsp : sendPayload ch attempts =
      (if res.length = 0 then ExchangeResult.noResponse
       else if res.length = 4 then
         if unpack_h2 (res.take 2) = 256 then
           ExchangeResult.protocolError (unpack_h2 ((res.drop 2).take 2))
         else ExchangeResult.success res
       else ExchangeResult.success res) := by
    simp [sendPayload, hloop]
  refine ⟨?_, ?_, ?_, ?_⟩
  · unfold tryDecodeError
    by_cases h4 : res.length = 4
    · by_cases h256 : unpack_h2 (res.take 2) = 256
      · simp [h4, h256]
      · simp [h4, h256]
    · simp [h4]
  · intro hne htd
    have h0len : res.length ≠ 0 := fun hl => hne (List.length_eq_zero.1 hl)
    unfold tryDecodeError at htd
    by_cases h4 : res.length = 4
    · by_cases h256 : unpack_h2 (res.take 2) = 256
      · rw [if_pos h4, if_pos h256] at htd
        exact absurd htd (by simp)
      · rw [hsp, if_neg h0len, if_pos h4, if_neg h256]
    · rw [hsp, if_neg h0len, if_neg h4]
  · intro htd
    unfold tryDecodeError at htd
    by_cases h4 : res.length = 4
    · by_cases h256 : unpack_h2 (res.take 2) = 256
      · have h0len : res.length ≠ 0 := by omega
        rw [hsp, if_neg h0len, if_pos h4, if_pos h256]
      · rw [if_pos h4, if_neg h256] at htd
        exact absurd htd (by simp)
    · rw [if_neg h4] at htd
      exact absurd htd (by simp)
  · intro hres
    subst hres
    rw [hsp]
    rfl

/-- C1 witness: the canonical 4-byte error reply `[1, 0, 0, 3]`. -/
theorem claim_C1_witness :
    ((tryDecodeError [1, 0, 0, 3]).isSome = true ↔
      ([1, 0, 0, 3] : List Nat).length = 4 ∧ unpack_h2 (([1, 0, 0, 3] : List Nat).take 2) = 256) ∧
    (([1, 0, 0, 3] : List Nat) ≠ [] → tryDecodeError [1, 0, 0, 3] = none →
      sendPayload (fun _ => AttemptOutcome.reply [1, 0, 0, 3]) 5 = ExchangeResult.success [1, 0, 0, 3]) ∧
    ((tryDecodeError [1, 0, 0, 3]).isSome = true →
      sendPayload (fun _ => AttemptOutcome.reply [1, 0, 0, 3]) 5 =
        ExchangeResult.protocolError (unpack_h2 ((([1, 0, 0, 3] : List Nat).drop 2).take 2))) ∧
    (([1, 0, 0, 3] : List Nat) = [] →
      sendPayload (fun _ => AttemptOutcome.reply [1, 0, 0, 3]) 5 = ExchangeResult.noResponse) :=
  claim_C1_error_probe [1, 0, 0, 3] (fun _ => AttemptOutcome.reply [1, 0, 0, 3]) 5 rfl (by omega)

/-- C1 counterexample: for the empty reply the probe yields nothing, yet the
raw bytes are not passed through to the success decoder — the exchange
reports the no-response outcome instead. -/
theorem claim_C1_counterexample :
    tryDecodeError [] = none ∧
    sendPayload (fun _ => AttemptOutcome.reply []) 5 ≠ ExchangeResult.success [] ∧
    sendPayload (fun _ => AttemptOutcome.reply []) 5 = ExchangeResult.noResponse := by
  decide

/-- C8: the error-code table maps 1-5 to the five named messages and every
other integer code to the unknown-code message; the 4-byte reply
`[1, 0, 0, 3]` is classified as a protocol error with code 3, whose
message is INVALID_PARAMETER. -/
theorem claim_C8_error_table (code : Int) (h : code < 1 ∨ 5 < code) :
    getServerErrorMsg 1 = "INVALID_MESSAGE_CODE" ∧
    getServerErrorMsg 2 = "INCORRECT_MESSAGE_LENGTH" ∧
    getServerErrorMsg 3 = "INVALID_PARAMETER" ∧
    getServerErrorMsg 4 = "INVALID_SINGLE_TOKEN" ∧
    getServerErrorMsg 5 = "ASCII_DECODE_ERROR" ∧
    getServerErrorMsg code = "UNKNOWN_ERROR_CODE" ∧
    sendPayload (fun _ => AttemptOutcome.reply [1, 0, 0, 3]) 5 = ExchangeResult.protocolError 3 := by
  refine ⟨rfl, rfl, rfl, rfl, rfl, ?_, by decide⟩
  have hcond : (authServerErrorMsg.length : Int) < code ∨ code < 1 := by
    rcases h with h | h
    · exact Or.inr h
    · exact Or.inl (by norm_num [authServerErrorMsg]; omega)
  unfold getServerErrorMsg
  rw [if_pos hcond]

/-- C8 witness: code 0 falls outside the table. -/
theorem claim_C8_witness :
    getServerErrorMsg 1 = "INVALID_MESSAGE_CODE" ∧
    getServerErrorMsg 2 = "INCORRECT_MESSAGE_LENGTH" ∧
    getServerErrorMsg 3 = "INVALID_PARAMETER" ∧
    getServerErrorMsg 4 = "INVALID_SINGLE_TOKEN" ∧
    getServerErrorMsg 5 = "ASCII_DECODE_ERROR" ∧
    getServerErrorMsg 0 = "UNKNOWN_ERROR_CODE" ∧
    sendPayload (fun _ => AttemptOutcome.reply [1, 0, 0, 3]) 5 = ExchangeResult.protocolError 3 :=
  claim_C8_error_table 0 (Or.inl (by omega))

-- § Claim theorems: codec behaviour.

/-- C2 (amended): id fields are space-padded to 12 bytes on encode and
trimmed on decode; token fields are not space-padded — `struct` pads them
with NUL bytes to 64 on encode — and the decoded token is the raw 64-byte
field, untrimmed. -/
theorem claim_C2_field_padding (id token : List Nat) (nonce : Int)
    (fid ftok : List Nat) (rtype rnonce : Int)
    (hid : isAscii id = true) (hidl : id.length ≤ 12)
    (htok : isAscii token = true) (htokl : token.length ≤ 64)
    (hn : inRange32 nonce)
    (hfid : isAscii fid = true) (hfidl : fid.length = 12)
    (hftok : isAscii ftok = true) (hftokl : ftok.length = 64)
    (hrt1 : -32768 ≤ rtype) (hrt2 : rtype ≤ 32767) (hrn : inRange32 rnonce) :
    encodeIndividualValidation id nonce token =
      some (pack_h 3 ++ (id ++ List.replicate (12 - id.length) 32) ++ pack_i nonce ++
        (token ++ List.replicate (64 - token.length) 0)) ∧
    decodeIndividualResponse (pack_h rtype ++ fid ++ pack_i rnonce ++ ftok) =
      some ⟨rtype, pyStrip fid, rnonce, ftok⟩ := by
  constructor
  · unfold encodeIndividualValidation
    rw [if_pos ⟨hid, htok, hn⟩,
        pack_s_of_eq 12 (ljust id 12) (length_ljust id 12 hidl),
        pack_s_of_le 64 token htokl]
    rfl
  · have hlen : (pack_h rtype ++ fid ++ pack_i rnonce ++ ftok).length = 82 := by
      simp [List.length_append, length_pack_h, length_pack_i, hfidl, hftokl]
    have hd2 : (pack_h rtype ++ fid ++ pack_i rnonce ++ ftok).drop 2 =
        fid ++ (pack_i rnonce ++ ftok) := by
      rw [List.append_assoc, List.append_assoc]
      exact List.drop_left' (length_pack_h rtype)
    have hd14 : (pack_h rtype ++ fid ++ pack_i rnonce ++ ftok).drop 14 =
        pack_i rnonce ++ ftok := by
      rw [List.append_assoc]
      exact List.drop_left' (by simp [List.length_append, length_pack_h, hfidl])
    have hd18 : (pack_h rtype ++ fid ++ pack_i rnonce ++ ftok).drop 18 = ftok :=
      List.drop_left' (by simp [List.length_append, length_pack_h, length_pack_i, hfidl])
    have ht2 : (pack_h rtype ++ fid ++ pack_i rnonce ++ ftok).take 2 = pack_h rtype := by
      rw [List.append_assoc, List.append_assoc]
      exact List.take_left' (length_pack_h rtype)
    simp only [decodeIndividualResponse, hlen, if_true, hd2, hd14, hd18, ht2]
    rw [List.take_left' hfidl, List.take_left' (length_pack_i rnonce),
        List.take_of_length_le (le_of_eq hftokl)]
    rw [if_pos ⟨hfid, hftok⟩, unpack_pack_h rtype hrt1 hrt2, unpack_pack_i rnonce hrn]

/-- C2 witness: a short id and token on encode, and a reply whose token
field carries trailing spaces that survive the decode. -/
theorem claim_C2_witness :
    encodeIndividualValidation (strCodes "bob") 1 (strCodes "tok") =
      some (pack_h 3 ++ (strCodes "bob" ++ List.replicate (12 - (strCodes "bob").length) 32) ++
        pack_i 1 ++ (strCodes "tok" ++ List.replicate (64 - (strCodes "tok").length) 0)) ∧
    decodeIndividualResponse
        (pack_h 4 ++ (strCodes "bob" ++ List.replicate 9 32) ++ pack_i 7 ++
          (strCodes "T0K3N" ++ List.replicate 59 32)) =
      some ⟨4, pyStrip (strCodes "bob" ++ List.replicate 9 32), 7,
        strCodes "T0K3N" ++ List.replicate 59 32⟩ :=
  claim_C2_field_padding (strCodes "bob") (strCodes "tok") 1
    (strCodes "bob" ++ List.replicate 9 32) (strCodes "T0K3N" ++ List.replicate 59 32) 4 7
    (by decide) (by decide) (by decide) (by decide) (by decide)
    (by decide) (by decide) (by decide) (by decide)
    (by decide) (by decide) (by decide)

/-- C2 counterexample: the claim predicts the token is encoded
space-padded; in fact byte 21 of the payload (the first token padding
byte) is NUL, and the space-padded payload is not produced. -/
theorem claim_C2_counterexample :
    encodeIndividualValidation (strCodes "bob") 1 (strCodes "tok") ≠
      some (pack_h 3 ++ ljust (strCodes "bob") 12 ++ pack_i 1 ++ ljust (strCodes "tok") 64) ∧
    (encodeIndividualValidation (strCodes "bob") 1 (strCodes "tok")).map
        (fun p => p.getD 21 999) = some 0 := by
  decide

/-- C4 (amended): encoding an individual request fails exactly on a
non-ASCII id; an ASCII id longer than 12 bytes does not fail — it is
silently truncated to its first 12 bytes, still yielding 18 bytes. -/
theorem claim_C4_encode_failure (id : List Nat) (nonce : Int) (hn : inRange32 nonce) :
    (encodeIndividualRequest id nonce = none ↔ isAscii id = false) ∧
    (isAscii id = true → (encodeIndividualRequest id nonce).map List.length = some 18) ∧
    (isAscii id = true → 12 ≤ id.length →
      encodeIndividualRequest id nonce = some (pack_h 1 ++ id.take 12 ++ pack_i nonce)) := by
  refine ⟨?_, ?_, ?_⟩
  · unfold encodeIndividualRequest
    by_cases ha : isAscii id = true
    · rw [if_pos ⟨ha, hn⟩]
      simp [ha]
    · rw [if_neg (fun hcond => ha hcond.1)]
      simp [Bool.not_eq_true] at ha
      simp [ha]
  · intro ha
    unfold encodeIndividualRequest
    rw [if_pos ⟨ha, hn⟩]
    simp [List.length_append, length_pack_h, length_pack_i, length_pack_s]
  · intro ha h12
    unfold encodeIndividualRequest
    rw [if_pos ⟨ha, hn⟩]
    have hlj : ljust id 12 = id := by
      unfold ljust
      rw [Nat.sub_eq_zero_of_le h12]
      simp
    have hps : pack_s 12 id = id.take 12 := by
      unfold pack_s
      rw [Nat.sub_eq_zero_of_le h12]
      simp
    rw [hlj, hps]

/-- C4 witness: a 13-byte ASCII id with an in-range nonce. -/
theorem claim_C4_witness :
    (encodeIndividualRequest (strCodes "abcdefghijklm") 7 = none ↔
      isAscii (strCodes "abcdefghijklm") = false) ∧
    (isAscii (strCodes "abcdefghijklm") = true →
      (encodeIndividualRequest (strCodes "abcdefghijklm") 7).map List.length = some 18) ∧
    (isAscii (strCodes "abcdefghijklm") = true → 12 ≤ (strCodes "abcdefghijklm").length →
      encodeIndividualRequest (strCodes "abcdefghijklm") 7 =
        some (pack_h 1 ++ (strCodes "abcdefghijklm").take 12 ++ pack_i 7)) :=
  claim_C4_encode_failure (strCodes "abcdefghijklm") 7 (by decide)

/-- C4 counterexample: the 13-byte ASCII id "abcdefghijklm" does produce a
payload — truncated to "abcdefghijkl" — where the claim says encoding must
fail. -/
theorem claim_C4_counterexample :
    (encodeIndividualRequest (strCodes "abcdefghijklm") 7).isSome = true ∧
    encodeIndividualRequest (strCodes "abcdefghijklm") 7 =
      some (pack_h 1 ++ strCodes "abcdefghijkl" ++ pack_i 7) := by
  decide

/-- The crafted 82-byte reply of the C5 scenario: type 2, id "alice" padded
with 7 spaces, nonce 42, token "T0K3N" followed by 59 spaces. -/
def aliceReply : List Nat :=
  pack_h 2 ++ ljust (strCodes "alice") 12 ++ pack_i 42 ++ ljust (strCodes "T0K3N") 64

/-- C5 (amended): the request encodes to the stated 18 bytes, and the
crafted reply decodes to a SAS string equal to "alice:42:T0K3N" followed
by the 59 trailing spaces of the untrimmed token field. -/
theorem claim_C5_scenario :
    encodeIndividualRequest (strCodes "alice") 42 =
      some ([0, 1] ++ strCodes "alice" ++ List.replicate 7 32 ++ [0, 0, 0, 42]) ∧
    (decodeIndividualResponse aliceReply).map IndividualTokenResponse.getStringSAS =
      some (strCodes "alice:42:T0K3N" ++ List.replicate 59 32) := by
  decide

/-- C5 counterexample: the decoded SAS string is not "alice:42:T0K3N" — the
59 padding spaces of the token field are retained. -/
theorem claim_C5_counterexample :
    (decodeIndividualResponse aliceReply).map IndividualTokenResponse.getStringSAS ≠
      some (strCodes "alice:42:T0K3N") := by
  decide

/-- C10: group encoding never fails on a member-count mismatch: for every
declared `n` within the 16-bit bound and every ASCII member list, the
member chunk has `80 * len(group)` bytes, the payload is the chunk
truncated or NUL-padded to `80 * n` bytes behind the 4-byte header, and
the total payload length is always `4 + 80 * n`. -/
theorem claim_C10_group_encode_total (n : Nat) (group : List Sas) (hn : n ≤ 32767)
    (hg : ∀ s ∈ group, asciiSas s) :
    (sasChunk group).map List.length = some (80 * group.length) ∧
    encodeGroupRequest n group =
      (sasChunk group).map (fun c => pack_h 5 ++ pack_h (n : Int) ++ pack_s (80 * n) c) ∧
    (encodeGroupRequest n group).map List.length = some (4 + 80 * n) := by
  obtain ⟨c, hc, hlen⟩ := sasChunk_eq group hg
  refine ⟨?_, ?_, ?_⟩
  · rw [hc]
    simp [hlen]
  · unfold encodeGroupRequest
    rw [hc]
    simp [hn]
  · unfold encodeGroupRequest
    rw [hc]
    simp [hn, List.length_append, length_pack_h, length_pack_s]
    omega

/-- C10 witness: declared size 1 with a member list of length 2 — the
payload is still well-formed, 84 bytes, the chunk truncated. -/
theorem claim_C10_witness :
    (sasChunk [⟨strCodes "bob", 1, strCodes "tokA"⟩, ⟨strCodes "carl", 2, strCodes "tokB"⟩]).map
        List.length =
      some (80 * ([⟨strCodes "bob", 1, strCodes "tokA"⟩,
        ⟨strCodes "carl", 2, strCodes "tokB"⟩] : List Sas).length) ∧
    encodeGroupRequest 1 [⟨strCodes "bob", 1, strCodes "tokA"⟩, ⟨strCodes "carl", 2, strCodes "tokB"⟩] =
      (sasChunk [⟨strCodes "bob", 1, strCodes "tokA"⟩, ⟨strCodes "carl", 2, strCodes "tokB"⟩]).map
        (fun c => pack_h 5 ++ pack_h (1 : Int) ++ pack_s (80 * 1) c) ∧
    (encodeGroupRequest 1 [⟨strCodes "bob", 1, strCodes "tokA"⟩,
        ⟨strCodes "carl", 2, strCodes "tokB"⟩]).map List.length = some (4 + 80 * 1) :=
  claim_C10_group_encode_total 1
    [⟨strCodes "bob", 1, strCodes "tokA"⟩, ⟨strCodes "carl", 2, strCodes "tokB"⟩]
    (by omega) (by decide)

/-- C3 (amended): for all `n = len(group)` with well-formed members,
encoding yields `4 + 80n` bytes, and decoding a matching success reply
returns the members in order with id and nonce intact and each token
NUL-padded to 64 bytes (exactly the original only when the token is
already 64 bytes). -/
theorem claim_C3_group_roundtrip (group : List Sas) (tok : List Nat)
    (hg : ∀ s ∈ group, validSas s) (hn : group.length ≤ 32767)
    (ht : isAscii tok = true) (htl : tok.length = 64) :
    (encodeGroupRequest group.length group).map List.length = some (4 + 80 * group.length) ∧
    (sasChunk group).map
        (fun c => decodeGroupResponse group.length
          (pack_h 6 ++ pack_h (group.length : Int) ++ c ++ tok)) =
      some (some ⟨6, (group.length : Int), group.map padSas, tok⟩) := by
  obtain ⟨c, hc, hlen⟩ := sasChunk_eq group (fun s hs => (hg s hs).1)
  constructor
  · unfold encodeGroupRequest
    rw [hc]
    simp [hn, List.length_append, length_pack_h, length_pack_s]
    omega
  · rw [hc]
    simp only [Option.map_some']
    have hrlen : (pack_h 6 ++ pack_h (group.length : Int) ++ c ++ tok).length =
        4 + (80 * group.length + 64) := by
      simp [List.length_append, length_pack_h, hlen, htl]
      omega
    have hd4 : (pack_h 6 ++ pack_h (group.length : Int) ++ c ++ tok).drop 4 = c ++ tok := by
      rw [List.append_assoc]
      exact List.drop_left' (by simp [List.length_append, length_pack_h])
    have hdtok : (pack_h 6 ++ pack_h (group.length : Int) ++ c ++ tok).drop
        (4 + 80 * group.length) = tok :=
      List.drop_left' (by simp [List.length_append, length_pack_h, hlen]; omega)
    have ht2 : (pack_h 6 ++ pack_h (group.length : Int) ++ c ++ tok).take 2 = pack_h 6 := by
      rw [List.append_assoc, List.append_assoc]
      exact List.take_left' (length_pack_h 6)
    have hd2 : (pack_h 6 ++ pack_h (group.length : Int) ++ c ++ tok).drop 2 =
        pack_h (group.length : Int) ++ (c ++ tok) := by
      rw [List.append_assoc, List.append_assoc]
      exact List.drop_left' (length_pack_h 6)
    simp only [decodeGroupResponse, hrlen, if_true, hd4, hdtok, ht2, hd2]
    rw [List.take_left' hlen.symm.symm]
    rw [List.take_of_length_le (le_of_eq htl), if_pos ht]
    rw [List.take_left' (length_pack_h (group.length : Int))]
    rw [decodeSasList_chunk group hg c hc]
    rw [unpack_pack_h 6 (by norm_num) (by norm_num)]
    rw [unpack_pack_h (group.length : Int) (by omega) (by exact_mod_cast hn)]
    rfl

/-- C3 witness: the spec's own two-member example, with an aggregate token
of 64 "A" bytes. -/
theorem claim_C3_witness :
    (encodeGroupRequest ([⟨strCodes "bob", 1, strCodes "tokA"⟩,
        ⟨strCodes "carl", 2, strCodes "tokB"⟩] : List Sas).length
        [⟨strCodes "bob", 1, strCodes "tokA"⟩, ⟨strCodes "carl", 2, strCodes "tokB"⟩]).map
        List.length =
      some (4 + 80 * ([⟨strCodes "bob", 1, strCodes "tokA"⟩,
        ⟨strCodes "carl", 2, strCodes "tokB"⟩] : List Sas).length) ∧
    (sasChunk [⟨strCodes "bob", 1, strCodes "tokA"⟩, ⟨strCodes "carl", 2, strCodes "tokB"⟩]).map
        (fun c => decodeGroupResponse ([⟨strCodes "bob", 1, strCodes "tokA"⟩,
            ⟨strCodes "carl", 2, strCodes "tokB"⟩] : List Sas).length
          (pack_h 6 ++ pack_h (([⟨strCodes "bob", 1, strCodes "tokA"⟩,
            ⟨strCodes "carl", 2, strCodes "tokB"⟩] : List Sas).length : Int) ++ c ++
            List.replicate 64 65)) =
      some (some ⟨6, (([⟨strCodes "bob", 1, strCodes "tokA"⟩,
          ⟨strCodes "carl", 2, strCodes "tokB"⟩] : List Sas).length : Int),
        ([⟨strCodes "bob", 1, strCodes "tokA"⟩,
          ⟨strCodes "carl", 2, strCodes "tokB"⟩] : List Sas).map padSas,
        List.replicate 64 65⟩) :=
  claim_C3_group_roundtrip
    [⟨strCodes "bob", 1, strCodes "tokA"⟩, ⟨strCodes "carl", 2, strCodes "tokB"⟩]
    (List.replicate 64 65) (by decide) (by decide) (by decide) (by decide)

set_option maxRecDepth 8192 in
/-- C3 counterexample: for the spec's two-member example the decoded group
is not equal to the original — the short tokens come back NUL-padded to
64 bytes. -/
theorem claim_C3_counterexample :
    (sasChunk [⟨strCodes "bob", 1, strCodes "tokA"⟩, ⟨strCodes "carl", 2, strCodes "tokB"⟩]).map
        (fun c => (decodeGroupResponse 2 (pack_h 6 ++ pack_h 2 ++ c ++ List.replicate 64 65)).map
          (fun r => r.group)) ≠
      some (some [⟨strCodes "bob", 1, strCodes "tokA"⟩, ⟨strCodes "carl", 2, strCodes "tokB"⟩]) := by
  decide

end BridgeAuth
